import Mathlib

set_option maxHeartbeats 1000000
set_option maxRecDepth 8000

namespace LSY

/-!
Shallow embedding of the two scripts of the LiveScotlandYard repository,
`scripts/combine_board_images.py` (board-fusion pipeline) and
`scripts/render_node_overlay.py` (node-overlay pipeline).

Python floats are modelled as exact rationals; numpy arrays as total
functions together with explicit dimensions.  OpenCV primitives that the
scripts call (`cvtColor`, `Laplacian`, `GaussianBlur`, `normalize`) are
modelled from their documented semantics; the 1-D Gaussian kernel produced
by `GaussianBlur` consists of fixed library constants, so the development
is parametric in that kernel and every theorem holds for every kernel.
-/

/-- BGR colour image: `pix i j c` is the 8-bit value of channel `c`
(0 = blue, 1 = green, 2 = red) at row `i`, column `j`. -/
structure Img where
  h : Nat
  w : Nat
  pix : Nat → Nat → Fin 3 → Nat

/-- Single-channel rational-valued map (a numpy float array with its
spatial dimensions). -/
structure SMap where
  h : Nat
  w : Nat
  val : Nat → Nat → ℚ

/-- Modelled from OpenCV `cvtColor(..., COLOR_BGR2GRAY)` on 8-bit input:
fixed-point luma `(1868*B + 9617*G + 4899*R + 2^13) >> 14`. -/
def bgr2grayU8 (b g r : Nat) : Nat :=
  (1868 * b + 9617 * g + 4899 * r + 8192) / 16384

/-- Lines 120-121 of `combine_board_images.py`: grayscale conversion
followed by `astype(np.float32) / 255.0`. -/
def cvtGrayNorm (image : Img) : SMap :=
  ⟨image.h, image.w, fun i j =>
    (bgr2grayU8 (image.pix i j 0) (image.pix i j 1) (image.pix i j 2) : ℚ) / 255⟩

/-- OpenCV `BORDER_REFLECT_101` index reflection, the default border mode
of `Laplacian` and `GaussianBlur`: index `-1` maps to `1` and index `n`
maps to `n - 2`. -/
def reflect101 (n : Nat) (p : Int) : Nat :=
  let q : Int := if p < 0 then -p else p
  if (n : Int) ≤ q then (2 * (n : Int) - 2 - q).toNat else q.toNat

/-- Modelled from OpenCV `Laplacian(src, CV_32F)` with the default
aperture size 1 (3-by-3 kernel rows `0 1 0`, `1 -4 1`, `0 1 0`) and the
default reflected border (line 122). -/
def lap3 (m : SMap) : SMap :=
  ⟨m.h, m.w, fun i j =>
    let v : Int → Int → ℚ := fun di dj =>
      m.val (reflect101 m.h ((i : Int) + di)) (reflect101 m.w ((j : Int) + dj))
    v (-1) 0 + v 1 0 + v 0 (-1) + v 0 1 - 4 * v 0 0⟩

/-- Pointwise square (`lap ** 2` on line 123). -/
def smapSq (m : SMap) : SMap := ⟨m.h, m.w, fun i j => m.val i j ^ 2⟩

/-- Horizontal pass of a separable convolution with centred anchor and
reflected border. -/
def convH (k : List ℚ) (m : SMap) : SMap :=
  ⟨m.h, m.w, fun i j =>
    (List.range k.length).foldl
      (fun acc t =>
        acc + k.getD t 0 * m.val i (reflect101 m.w ((j : Int) + (t : Int) - (k.length / 2 : Nat))))
      0⟩

/-- Vertical pass of a separable convolution with centred anchor and
reflected border. -/
def convV (k : List ℚ) (m : SMap) : SMap :=
  ⟨m.h, m.w, fun i j =>
    (List.range k.length).foldl
      (fun acc t =>
        acc + k.getD t 0 * m.val (reflect101 m.h ((i : Int) + (t : Int) - (k.length / 2 : Nat))) j)
      0⟩

/-- Modelled from OpenCV `GaussianBlur(src, (0, 0), sigma)` (line 123): a
separable convolution applying the same 1-D kernel `k` along rows and then
columns.  The entries of `k` are library constants derived from `sigma`. -/
def gaussianBlurK (k : List ℚ) (m : SMap) : SMap := convV k (convH k m)

/-- Every entry of a map, listed row by row. -/
def SMap.vals (m : SMap) : List ℚ :=
  (List.range m.h).flatMap (fun i => (List.range m.w).map (fun j => m.val i j))

/-- Minimum of a list of rationals (0 for the empty list, on which numpy
instead raises; the pipelines only use it on nonempty data). -/
def listMin : List ℚ → ℚ
  | [] => 0
  | x :: xs => xs.foldl min x

/-- Maximum of a list of rationals (0 for the empty list). -/
def listMax : List ℚ → ℚ
  | [] => 0
  | x :: xs => xs.foldl max x

/-- Modelled from OpenCV `normalize(src, None, 0.0, 1.0, NORM_MINMAX)`
(line 124): affine rescale sending the observed minimum to 0 and the
observed maximum to 1; a constant map is sent to 0 (OpenCV uses scale 0
when the maximum equals the minimum). -/
def normalizeMinMax (m : SMap) : SMap :=
  let lo := listMin m.vals
  let hi := listMax m.vals
  let scale : ℚ := if 0 < hi - lo then 1 / (hi - lo) else 0
  ⟨m.h, m.w, fun i j => (m.val i j - lo) * scale⟩

/-- Epsilon added on line 125 (`1e-6`). -/
def epsilon : ℚ := 1 / 1000000

/-- Lines 120-125, `laplacian_sharpness`: grayscale, Laplacian, square,
Gaussian smoothing with kernel `k`, min-max normalisation, plus epsilon. -/
def laplacian_sharpness (k : List ℚ) (image : Img) : SMap :=
  let m := normalizeMinMax (gaussianBlurK k (smapSq (lap3 (cvtGrayNorm image))))
  ⟨m.h, m.w, fun i j => m.val i j + epsilon⟩

/-- Line 145: `weight_primary = sharp_primary / (sharp_primary + sharp_secondary)`. -/
def weight_primary (k : List ℚ) (primary secondary : Img) : SMap :=
  ⟨primary.h, primary.w, fun i j =>
    (laplacian_sharpness k primary).val i j /
      ((laplacian_sharpness k primary).val i j + (laplacian_sharpness k secondary).val i j)⟩

/-- Line 146: `weight_secondary = 1.0 - weight_primary`. -/
def weight_secondary (k : List ℚ) (primary secondary : Img) : SMap :=
  ⟨primary.h, primary.w, fun i j => 1 - (weight_primary k primary secondary).val i j⟩

/-- Modelled from numpy `astype(np.uint8)` on a nonnegative in-range
float: truncation towards zero. -/
def castU8 (q : ℚ) : Nat := (Int.floor q).toNat

/-- Lines 148-151 of `blend_images`: per-channel weighted combination of
the two pixel values, cast back to `uint8`.  The output array takes the
broadcast shape of `primary`. -/
def blend_images (k : List ℚ) (primary secondary : Img) : Img :=
  ⟨primary.h, primary.w, fun i j c =>
    castU8 ((primary.pix i j c : ℚ) * (weight_primary k primary secondary).val i j +
      (secondary.pix i j c : ℚ) * (weight_secondary k primary secondary).val i j)⟩

theorem foldl_min_le_init (l : List ℚ) (a : ℚ) : l.foldl min a ≤ a := by
  induction l generalizing a with
  | nil => exact le_refl a
  | cons b t ih => exact le_trans (ih (min a b)) (min_le_left a b)

theorem foldl_min_le_mem (l : List ℚ) : ∀ (a x : ℚ), x ∈ l → l.foldl min a ≤ x := by
  induction l with
  | nil => intro a x hx; cases hx
  | cons b t ih =>
    intro a x hx
    rcases List.mem_cons.mp hx with h | h
    · subst h
      exact le_trans (foldl_min_le_init t (min a x)) (min_le_right a x)
    · exact ih (min a b) x h

theorem init_le_foldl_max (l : List ℚ) (a : ℚ) : a ≤ l.foldl max a := by
  induction l generalizing a with
  | nil => exact le_refl a
  | cons b t ih => exact le_trans (le_max_left a b) (ih (max a b))

theorem mem_le_foldl_max (l : List ℚ) : ∀ (a x : ℚ), x ∈ l → x ≤ l.foldl max a := by
  induction l with
  | nil => intro a x hx; cases hx
  | cons b t ih =>
    intro a x hx
    rcases List.mem_cons.mp hx with h | h
    · subst h
      exact le_trans (le_max_right a x) (init_le_foldl_max t (max a x))
    · exact ih (max a b) x h

theorem listMin_le {l : List ℚ} {x : ℚ} (hx : x ∈ l) : listMin l ≤ x := by
  cases l with
  | nil => cases hx
  | cons y t =>
    rcases List.mem_cons.mp hx with h | h
    · subst h; exact foldl_min_le_init t x
    · exact foldl_min_le_mem t y x h

theorem le_listMax {l : List ℚ} {x : ℚ} (hx : x ∈ l) : x ≤ listMax l := by
  cases l with
  | nil => cases hx
  | cons y t =>
    rcases List.mem_cons.mp hx with h | h
    · subst h; exact init_le_foldl_max t x
    · exact mem_le_foldl_max t y x h

theorem mem_vals (m : SMap) {i j : Nat} (hi : i < m.h) (hj : j < m.w) :
    m.val i j ∈ m.vals := by
  unfold SMap.vals
  exact List.mem_flatMap.mpr
    ⟨i, List.mem_range.mpr hi, List.mem_map.mpr ⟨j, List.mem_range.mpr hj, rfl⟩⟩

theorem normalizeMinMax_val (m : SMap) (i j : Nat) :
    (normalizeMinMax m).val i j =
      (m.val i j - listMin m.vals) *
        (if 0 < listMax m.vals - listMin m.vals then 1 / (listMax m.vals - listMin m.vals) else 0) :=
  rfl

theorem normalizeMinMax_bounds (m : SMap) {i j : Nat} (hi : i < m.h) (hj : j < m.w) :
    0 ≤ (normalizeMinMax m).val i j ∧ (normalizeMinMax m).val i j ≤ 1 := by
  have hmem := mem_vals m hi hj
  have hlo : listMin m.vals ≤ m.val i j := listMin_le hmem
  have hhi : m.val i j ≤ listMax m.vals := le_listMax hmem
  rw [normalizeMinMax_val]
  by_cases hpos : 0 < listMax m.vals - listMin m.vals
  · rw [if_pos hpos]
    constructor
    · exact mul_nonneg (by linarith) (le_of_lt (by positivity))
    · rw [mul_one_div, div_le_one hpos]
      linarith
  · rw [if_neg hpos]
    norm_num

theorem epsilon_pos : 0 < epsilon := by norm_num [epsilon]

theorem laplacian_sharpness_val (k : List ℚ) (image : Img) (i j : Nat) :
    (laplacian_sharpness k image).val i j =
      (normalizeMinMax (gaussianBlurK k (smapSq (lap3 (cvtGrayNorm image))))).val i j + epsilon :=
  rfl

theorem sharpness_bounds (k : List ℚ) (image : Img) {i j : Nat}
    (hi : i < image.h) (hj : j < image.w) :
    epsilon ≤ (laplacian_sharpness k image).val i j ∧
      (laplacian_sharpness k image).val i j ≤ 1 + epsilon := by
  have h := normalizeMinMax_bounds (gaussianBlurK k (smapSq (lap3 (cvtGrayNorm image))))
    (i := i) (j := j) hi hj
  rw [laplacian_sharpness_val]
  constructor
  · linarith [h.1]
  · linarith [h.2]

/-- C1: for every pair of input images (no dimension assumptions are even
needed) the per-pixel blend weights of the Weighted Blender satisfy
`weight_primary + weight_secondary = 1` at every pixel, since
`weight_secondary` is the pointwise complement of `weight_primary`. -/
theorem blend_weights_sum_one (k : List ℚ) (primary secondary : Img) (i j : Nat) :
    (weight_primary k primary secondary).val i j +
      (weight_secondary k primary secondary).val i j = 1 := by
  show (weight_primary k primary secondary).val i j +
      (1 - (weight_primary k primary secondary).val i j) = 1
  ring

theorem castU8_natCast (n : Nat) : castU8 (n : ℚ) = n := by
  simp [castU8]

/-- C2: blending an image with itself returns the image unchanged: both
sharpness maps coincide, each output channel is `p * w + p * (1 - w) = p`,
and the cast back to `uint8` is the identity on 8-bit integers. -/
theorem blend_identical_inputs (k : List ℚ) (image : Img) :
    (blend_images k image image).h = image.h ∧
      (blend_images k image image).w = image.w ∧
      ∀ (i j : Nat) (c : Fin 3),
        (blend_images k image image).pix i j c = image.pix i j c := by
  refine ⟨rfl, rfl, fun i j c => ?_⟩
  have h1 : (image.pix i j c : ℚ) * (weight_primary k image image).val i j +
      (image.pix i j c : ℚ) * (weight_secondary k image image).val i j =
      (image.pix i j c : ℚ) := by
    show (image.pix i j c : ℚ) * (weight_primary k image image).val i j +
        (image.pix i j c : ℚ) * (1 - (weight_primary k image image).val i j) =
        (image.pix i j c : ℚ)
    ring
  calc (blend_images k image image).pix i j c
      = castU8 ((image.pix i j c : ℚ) * (weight_primary k image image).val i j +
          (image.pix i j c : ℚ) * (weight_secondary k image image).val i j) := rfl
    _ = castU8 ((image.pix i j c : ℚ)) := by rw [h1]
    _ = image.pix i j c := castU8_natCast _

/-- C4: every value of a sharpness map lies in `[epsilon, 1 + epsilon]`;
in particular the blend-weight denominator, the sum of two sharpness
values taken at a common in-range pixel, is strictly positive. -/
theorem sharpness_map_range (k : List ℚ) (imgA imgB : Img) (i j : Nat)
    (hiA : i < imgA.h) (hjA : j < imgA.w) (hiB : i < imgB.h) (hjB : j < imgB.w) :
    (epsilon ≤ (laplacian_sharpness k imgA).val i j ∧
        (laplacian_sharpness k imgA).val i j ≤ 1 + epsilon) ∧
      0 < (laplacian_sharpness k imgA).val i j + (laplacian_sharpness k imgB).val i j := by
  have hA := sharpness_bounds k imgA hiA hjA
  have hB := sharpness_bounds k imgB hiB hjB
  have he := epsilon_pos
  exact ⟨hA, by linarith [hA.1, hB.1]⟩

/-- Sample 1-by-1 image used to instantiate the blender theorems. -/
def img1 : Img := ⟨1, 1, fun _ _ _ => 7⟩

/-- Witness for C4 at a concrete 1-by-1 image and the trivial kernel. -/
theorem sharpness_map_range_witness :
    (0 < img1.h ∧ 0 < img1.w) ∧
      ((epsilon ≤ (laplacian_sharpness [1] img1).val 0 0 ∧
          (laplacian_sharpness [1] img1).val 0 0 ≤ 1 + epsilon) ∧
        0 < (laplacian_sharpness [1] img1).val 0 0 + (laplacian_sharpness [1] img1).val 0 0) :=
  ⟨⟨by decide, by decide⟩,
    sharpness_map_range [1] img1 img1 0 0 (by decide) (by decide) (by decide) (by decide)⟩

/-- C3: each output pixel of the Weighted Blender is the cast back to
`uint8` of `primary * w + secondary * (1 - w)` with the same weight `w`
for all three channels; the combination lies in `[0, 255]`, so the cast
stays inside the 8-bit range and the output pixel is a valid 8-bit value. -/
theorem blend_pixel_formula (k : List ℚ) (primary secondary : Img) (i j : Nat) (c : Fin 3)
    (hip : i < primary.h) (hjp : j < primary.w)
    (his : i < secondary.h) (hjs : j < secondary.w)
    (hp : primary.pix i j c ≤ 255) (hs : secondary.pix i j c ≤ 255) :
    (blend_images k primary secondary).pix i j c =
        castU8 ((primary.pix i j c : ℚ) * (weight_primary k primary secondary).val i j +
          (secondary.pix i j c : ℚ) * (1 - (weight_primary k primary secondary).val i j)) ∧
      0 ≤ (primary.pix i j c : ℚ) * (weight_primary k primary secondary).val i j +
          (secondary.pix i j c : ℚ) * (1 - (weight_primary k primary secondary).val i j) ∧
      (primary.pix i j c : ℚ) * (weight_primary k primary secondary).val i j +
          (secondary.pix i j c : ℚ) * (1 - (weight_primary k primary secondary).val i j) ≤ 255 ∧
      (blend_images k primary secondary).pix i j c ≤ 255 := by
  have hA := sharpness_bounds k primary hip hjp
  have hB := sharpness_bounds k secondary his hjs
  have he := epsilon_pos
  have hdenom : 0 < (laplacian_sharpness k primary).val i j +
      (laplacian_sharpness k secondary).val i j := by linarith [hA.1, hB.1]
  have hwp_eq : (weight_primary k primary secondary).val i j =
      (laplacian_sharpness k primary).val i j /
        ((laplacian_sharpness k primary).val i j + (laplacian_sharpness k secondary).val i j) :=
    rfl
  have hwp0 : 0 ≤ (weight_primary k primary secondary).val i j := by
    rw [hwp_eq]
    exact div_nonneg (by linarith [hA.1]) (le_of_lt hdenom)
  have hwp1 : (weight_primary k primary secondary).val i j ≤ 1 := by
    rw [hwp_eq, div_le_one hdenom]
    linarith [hB.1]
  have hpc : (primary.pix i j c : ℚ) ≤ 255 := by exact_mod_cast hp
  have hsc : (secondary.pix i j c : ℚ) ≤ 255 := by exact_mod_cast hs
  have hpc0 : (0 : ℚ) ≤ (primary.pix i j c : ℚ) := Nat.cast_nonneg _
  have hsc0 : (0 : ℚ) ≤ (secondary.pix i j c : ℚ) := Nat.cast_nonneg _
  have hcombo0 : 0 ≤ (primary.pix i j c : ℚ) * (weight_primary k primary secondary).val i j +
      (secondary.pix i j c : ℚ) * (1 - (weight_primary k primary secondary).val i j) := by
    have := mul_nonneg hpc0 hwp0
    have := mul_nonneg hsc0 (by linarith : (0 : ℚ) ≤ 1 - (weight_primary k primary secondary).val i j)
    linarith
  have hcombo255 : (primary.pix i j c : ℚ) * (weight_primary k primary secondary).val i j +
      (secondary.pix i j c : ℚ) * (1 - (weight_primary k primary secondary).val i j) ≤ 255 := by
    have h1 : (primary.pix i j c : ℚ) * (weight_primary k primary secondary).val i j ≤
        255 * (weight_primary k primary secondary).val i j :=
      mul_le_mul_of_nonneg_right hpc hwp0
    have h2 : (secondary.pix i j c : ℚ) * (1 - (weight_primary k primary secondary).val i j) ≤
        255 * (1 - (weight_primary k primary secondary).val i j) :=
      mul_le_mul_of_nonneg_right hsc (by linarith)
    linarith
  refine ⟨rfl, hcombo0, hcombo255, ?_⟩
  show castU8 ((primary.pix i j c : ℚ) * (weight_primary k primary secondary).val i j +
      (secondary.pix i j c : ℚ) * (weight_secondary k primary secondary).val i j) ≤ 255
  have hws : (weight_secondary k primary secondary).val i j =
      1 - (weight_primary k primary secondary).val i j := rfl
  rw [hws]
  unfold castU8
  rw [Int.toNat_le]
  calc Int.floor ((primary.pix i j c : ℚ) * (weight_primary k primary secondary).val i j +
        (secondary.pix i j c : ℚ) * (1 - (weight_primary k primary secondary).val i j))
      ≤ Int.floor (255 : ℚ) := Int.floor_le_floor hcombo255
    _ = 255 := by norm_num

/-- Second sample 1-by-1 image. -/
def img2 : Img := ⟨1, 1, fun _ _ _ => 20⟩

/-- Witness for C3 at two concrete 1-by-1 images and the trivial kernel. -/
theorem blend_pixel_formula_witness :
    (0 < img1.h ∧ 0 < img1.w ∧ 0 < img2.h ∧ 0 < img2.w ∧
        img1.pix 0 0 0 ≤ 255 ∧ img2.pix 0 0 0 ≤ 255) ∧
      ((blend_images [1] img1 img2).pix 0 0 0 =
          castU8 ((img1.pix 0 0 0 : ℚ) * (weight_primary [1] img1 img2).val 0 0 +
            (img2.pix 0 0 0 : ℚ) * (1 - (weight_primary [1] img1 img2).val 0 0)) ∧
        0 ≤ (img1.pix 0 0 0 : ℚ) * (weight_primary [1] img1 img2).val 0 0 +
            (img2.pix 0 0 0 : ℚ) * (1 - (weight_primary [1] img1 img2).val 0 0) ∧
        (img1.pix 0 0 0 : ℚ) * (weight_primary [1] img1 img2).val 0 0 +
            (img2.pix 0 0 0 : ℚ) * (1 - (weight_primary [1] img1 img2).val 0 0) ≤ 255 ∧
        (blend_images [1] img1 img2).pix 0 0 0 ≤ 255) :=
  ⟨⟨by decide, by decide, by decide, by decide, by decide, by decide⟩,
    blend_pixel_formula [1] img1 img2 0 0 0 (by decide) (by decide) (by decide) (by decide)
      (by decide) (by decide)⟩

/-- Sub-pixel keypoint location (`kp.pt`). -/
def Pt : Type := ℚ × ℚ

/-- Binary ORB descriptor, a fixed-length bit string. -/
def Desc : Type := List Bool

/-- Match record (`cv2.DMatch`): indices into the two descriptor lists and
the Hamming distance between the matched descriptors. -/
structure DM where
  queryIdx : Nat
  trainIdx : Nat
  distance : Nat
deriving DecidableEq

/-- Hamming distance between two equal-length binary descriptors. -/
def hamming (a b : Desc) : Nat := (List.zip a b).countP (fun p => p.1 != p.2)

/-- Index of the first descriptor of `ds` at minimal Hamming distance
from `d` (0 if `ds` is empty). -/
def bestIdx (d : Desc) (ds : List Desc) : Nat :=
  (List.range ds.length).foldl
    (fun best i => if hamming d (ds.getD i []) < hamming d (ds.getD best []) then i else best) 0

/-- Modelled from the spec: `cv2.BFMatcher(cv2.NORM_HAMMING, crossCheck=True).match`
(line 88-89) — match every primary descriptor against its nearest secondary
descriptor by Hamming distance, keeping only matches that are mutually each
other's best choice, at most one match per primary descriptor, listed in
query order. -/
def crossCheck (des1 des2 : List Desc) : List DM :=
  if des2.length = 0 then []
  else
    (List.range des1.length).filterMap (fun i =>
      let d1 := des1.getD i []
      let j := bestIdx d1 des2
      if bestIdx (des2.getD j []) des1 = i then
        some ⟨i, j, hamming d1 (des2.getD j [])⟩
      else none)

/-- Error taxonomy of `align_secondary`: the three `RuntimeError` raises on
lines 86, 91 and 99 of `combine_board_images.py`. -/
inductive AlignError where
  | noDescriptors : AlignError
  | insufficientMatches : AlignError
  | homographyFailed : AlignError
deriving DecidableEq

/-- Lines 83-102, `align_secondary`, embedded from the raise of line 86
onward.  ORB keypoint detection (`orb.detectAndCompute`, an OpenCV
routine) is taken as input: `kp1`/`des1o` for the primary image and
`kp2`/`des2o` for the secondary, with `des1o = none` when OpenCV returns
no descriptors.  The robust homography estimator `findH`
(`cv2.findHomography` with `cv2.RANSAC`, a randomised OpenCV routine) and
the warp `warpPersp` (`cv2.warpPerspective`) are also parameters; the
repository's own logic — the cross-check matching call, the
fewer-than-12-matches guard, the sort-and-cap of matches, the point-list
construction and the argument order of the homography call — is embedded
directly. -/
def align_secondary {H I : Type} (kp1 : List Pt) (des1o : Option (List Desc))
    (kp2 : List Pt) (des2o : Option (List Desc))
    (findH : List Pt → List Pt → ℚ → Option H) (warpPersp : H → I) :
    Except AlignError (I × H) :=
  match des1o, des2o with
  | some des1, some des2 =>
    let ms := crossCheck des1 des2
    if ms.length < 12 then Except.error AlignError.insufficientMatches
    else
      let best := (ms.mergeSort (fun a b => decide (a.distance ≤ b.distance))).take 300
      let src_pts := best.map (fun m => kp1.getD m.queryIdx ((0 : ℚ), (0 : ℚ)))
      let dst_pts := best.map (fun m => kp2.getD m.trainIdx ((0 : ℚ), (0 : ℚ)))
      match findH dst_pts src_pts 5 with
      | none => Except.error AlignError.homographyFailed
      | some hm => Except.ok (warpPersp hm, hm)
  | _, _ => Except.error AlignError.noDescriptors

theorem align_secondary_some {H I : Type} (kp1 kp2 : List Pt) (des1 des2 : List Desc)
    (findH : List Pt → List Pt → ℚ → Option H) (warpPersp : H → I) :
    align_secondary kp1 (some des1) kp2 (some des2) findH warpPersp =
      (if (crossCheck des1 des2).length < 12 then Except.error AlignError.insufficientMatches
      else
        let best :=
          ((crossCheck des1 des2).mergeSort (fun a b => decide (a.distance ≤ b.distance))).take 300
        let src_pts := best.map (fun m => kp1.getD m.queryIdx ((0 : ℚ), (0 : ℚ)))
        let dst_pts := best.map (fun m => kp2.getD m.trainIdx ((0 : ℚ), (0 : ℚ)))
        match findH dst_pts src_pts 5 with
        | none => Except.error AlignError.homographyFailed
        | some hm => Except.ok (warpPersp hm, hm)) :=
  rfl

/-- C5: given descriptors for both images, `align_secondary` raises the
insufficient-matches error exactly when the cross-checked matching yields
fewer than 12 matches; with 12 or more it proceeds to homography
estimation and never raises that error (it may still fail with the
distinct homography error). -/
theorem insufficient_matches_iff {H I : Type} (kp1 kp2 : List Pt) (des1 des2 : List Desc)
    (findH : List Pt → List Pt → ℚ → Option H) (warpPersp : H → I) :
    align_secondary kp1 (some des1) kp2 (some des2) findH warpPersp =
        Except.error AlignError.insufficientMatches ↔
      (crossCheck des1 des2).length < 12 := by
  rw [align_secondary_some]
  by_cases h : (crossCheck des1 des2).length < 12
  · simp [h]
  · rw [if_neg h]
    simp only [h, iff_false]
    cases hf : findH
        (((crossCheck des1 des2).mergeSort (fun a b => decide (a.distance ≤ b.distance))).take 300
          |>.map (fun m => kp2.getD m.trainIdx ((0 : ℚ), (0 : ℚ))))
        (((crossCheck des1 des2).mergeSort (fun a b => decide (a.distance ≤ b.distance))).take 300
          |>.map (fun m => kp1.getD m.queryIdx ((0 : ℚ), (0 : ℚ)))) 5 with
    | none => simp [hf]
    | some hm => simp [hf]

/-- C6: when at least 12 cross-checked matches exist, `align_secondary`
calls the robust homography estimator with inlier threshold 5.0, passing
the secondary-image keypoint coordinates as source points and the
primary-image keypoint coordinates as destination points (so the estimate
maps secondary onto primary), both taken from the matches sorted by
ascending distance and capped at the best 300. -/
theorem homography_call_shape {H I : Type} (kp1 kp2 : List Pt) (des1 des2 : List Desc)
    (findH : List Pt → List Pt → ℚ → Option H) (warpPersp : H → I)
    (h12 : 12 ≤ (crossCheck des1 des2).length) :
    align_secondary kp1 (some des1) kp2 (some des2) findH warpPersp =
      (let best :=
        ((crossCheck des1 des2).mergeSort (fun a b => decide (a.distance ≤ b.distance))).take 300
      let secondaryPts := best.map (fun m => kp2.getD m.trainIdx ((0 : ℚ), (0 : ℚ)))
      let primaryPts := best.map (fun m => kp1.getD m.queryIdx ((0 : ℚ), (0 : ℚ)))
      match findH secondaryPts primaryPts 5 with
      | none => Except.error AlignError.homographyFailed
      | some hm => Except.ok (warpPersp hm, hm)) := by
  rw [align_secondary_some]
  rw [if_neg (Nat.not_lt.mpr h12)]

/-- Twelve pairwise-distinct binary descriptors: each is its own unique
nearest neighbour, so cross-checking them against themselves produces
twelve matches. -/
def desc12 : List Desc :=
  [[false, false, false, false], [true, false, false, false], [false, true, false, false],
   [false, false, true, false], [false, false, false, true], [true, true, false, false],
   [true, false, true, false], [true, false, false, true], [false, true, true, false],
   [false, true, false, true], [false, false, true, true], [true, true, true, false]]

/-- Witness for C6 at a concrete input with 12 cross-checked matches. -/
theorem homography_call_shape_witness :
    12 ≤ (crossCheck desc12 desc12).length ∧
      align_secondary ([] : List Pt) (some desc12) ([] : List Pt) (some desc12)
          (fun _ _ _ => some ()) (fun _ => ()) =
        (let best :=
          ((crossCheck desc12 desc12).mergeSort (fun a b => decide (a.distance ≤ b.distance))).take 300
        let secondaryPts := best.map (fun m => ([] : List Pt).getD m.trainIdx ((0 : ℚ), (0 : ℚ)))
        let primaryPts := best.map (fun m => ([] : List Pt).getD m.queryIdx ((0 : ℚ), (0 : ℚ)))
        match (fun (_ : List Pt) (_ : List Pt) (_ : ℚ) => some ()) secondaryPts primaryPts 5 with
        | none => Except.error AlignError.homographyFailed
        | some hm => Except.ok ((fun _ => ()) hm, hm)) :=
  ⟨by decide,
    homography_call_shape ([] : List Pt) ([] : List Pt) desc12 desc12
      (fun _ _ _ => some ()) (fun _ => ()) (by decide)⟩

/-- Node record of `render_node_overlay.py` (`id`, `position.x`,
`position.y`, `edges`); the edge payload is carried around but never
inspected by the script, so its type is a parameter. -/
structure Node (α : Type) where
  node_id : Int
  x : ℚ
  y : ℚ
  edges : α
deriving DecidableEq

/-- Values of the `--fit-mode` flag. -/
inductive FitMode where
  | uniform : FitMode
  | stretch : FitMode
  | raw : FitMode
deriving DecidableEq

/-- Python error classes that `compute_transform` can raise: `ValueError`
(numpy min/max reduction of an empty array on lines 108-109, or the
explicit degenerate-margin raise on line 116) and `ZeroDivisionError`
(Python float division by a zero source span on lines 121-122 and 126). -/
inductive PyErr where
  | valueError : PyErr
  | zeroDivisionError : PyErr
deriving DecidableEq

/-- Python float division, which raises `ZeroDivisionError` on a zero
divisor. -/
def pdiv (a b : ℚ) : Except PyErr ℚ :=
  if b = 0 then Except.error PyErr.zeroDivisionError else Except.ok (a / b)

/-- Lines 106-131, `compute_transform`: min/max of the node coordinates
(numpy raises `ValueError` on an empty array), the degenerate-margin
guard, then the mode dispatch, returning
`(scale_x, scale_y, offset_x, offset_y)`. -/
def compute_transform {α : Type} (nodes : List (Node α)) (width height : Int)
    (margin : ℚ) (mode : FitMode) : Except PyErr (ℚ × ℚ × ℚ × ℚ) :=
  if nodes.isEmpty then Except.error PyErr.valueError
  else
    let min_x := listMin (nodes.map Node.x)
    let max_x := listMax (nodes.map Node.x)
    let min_y := listMin (nodes.map Node.y)
    let max_y := listMax (nodes.map Node.y)
    let src_width := max_x - min_x
    let src_height := max_y - min_y
    let usable_w : ℚ := (width : ℚ) - 2 * margin
    let usable_h : ℚ := (height : ℚ) - 2 * margin
    if usable_w ≤ 0 ∨ usable_h ≤ 0 then Except.error PyErr.valueError
    else
      match mode with
      | FitMode.raw => Except.ok (1, 1, 0, 0)
      | FitMode.stretch =>
        match pdiv usable_w src_width with
        | Except.error e => Except.error e
        | Except.ok scale_x =>
          match pdiv usable_h src_height with
          | Except.error e => Except.error e
          | Except.ok scale_y =>
            Except.ok (scale_x, scale_y, margin - scale_x * min_x, margin - scale_y * min_y)
      | FitMode.uniform =>
        match pdiv usable_w src_width with
        | Except.error e => Except.error e
        | Except.ok ratio_w =>
          match pdiv usable_h src_height with
          | Except.error e => Except.error e
          | Except.ok ratio_h =>
            let uniform_scale := min ratio_w ratio_h
            Except.ok (uniform_scale, uniform_scale,
              ((width : ℚ) - uniform_scale * src_width) / 2 - uniform_scale * min_x,
              ((height : ℚ) - uniform_scale * src_height) / 2 - uniform_scale * min_y)

/-- Lines 134-157, `transform_nodes`: the Python loop appending one
remapped node per input node. -/
def transform_nodes {α : Type} (nodes : List (Node α))
    (scale_x scale_y offset_x offset_y : ℚ) : List (Node α) :=
  nodes.foldl
    (fun remapped node =>
      remapped ++
        [⟨node.node_id, node.x * scale_x + offset_x, node.y * scale_y + offset_y, node.edges⟩])
    []

theorem transform_foldl_eq_map {α : Type} (ns : List (Node α)) (sx sy ox oy : ℚ)
    (acc : List (Node α)) :
    ns.foldl
        (fun remapped node =>
          remapped ++ [⟨node.node_id, node.x * sx + ox, node.y * sy + oy, node.edges⟩])
        acc =
      acc ++ ns.map (fun node => ⟨node.node_id, node.x * sx + ox, node.y * sy + oy, node.edges⟩) := by
  induction ns generalizing acc with
  | nil => simp
  | cons n t ih => simp [ih]

/-- C9: `transform_nodes` only remaps the coordinates: it equals the map
sending each node to a copy with `x * scale_x + offset_x` and
`y * scale_y + offset_y`; identifiers, edge payloads, list length and
order are all preserved. -/
theorem transform_nodes_frame {α : Type} (ns : List (Node α)) (sx sy ox oy : ℚ) :
    transform_nodes ns sx sy ox oy =
        ns.map (fun node => ⟨node.node_id, node.x * sx + ox, node.y * sy + oy, node.edges⟩) ∧
      (transform_nodes ns sx sy ox oy).map Node.node_id = ns.map Node.node_id ∧
      (transform_nodes ns sx sy ox oy).map Node.edges = ns.map Node.edges ∧
      (transform_nodes ns sx sy ox oy).length = ns.length := by
  have h := transform_foldl_eq_map ns sx sy ox oy []
  rw [transform_nodes]
  rw [h]
  refine ⟨by simp, ?_, ?_, by simp⟩
  · simp only [List.nil_append, List.map_map]
    rfl
  · simp only [List.nil_append, List.map_map]
    rfl

/-- Node set whose x coordinates span exactly [0, 100] but whose y span
makes the vertical ratio the binding one under uniform fit. -/
def c7nodes : List (Node Unit) := [⟨1, 0, 0, ()⟩, ⟨2, 100, 100, ()⟩]

/-- C7 as stated is false: for these nodes (x spanning exactly [0, 100]),
width 1000, margin 0 and uniform fit, the height (100) makes the vertical
ratio 1 the binding one, so the returned scale is 1, not
usable_width / 100 = 10, and x = 100 is mapped to 100 * 1 + 450 = 550,
not to the right margin boundary 1000. -/
theorem compute_transform_uniform_counterexample :
    (listMin (c7nodes.map Node.x) = 0 ∧ listMax (c7nodes.map Node.x) = 100) ∧
      compute_transform c7nodes 1000 100 0 FitMode.uniform = Except.ok (1, 1, 450, 0) ∧
      (1 : ℚ) ≠ 1000 / 100 ∧ (100 : ℚ) * 1 + 450 ≠ 1000 := by
  norm_num [c7nodes, compute_transform, listMin, listMax, pdiv, min_def, max_def]

/-- C8 as stated is false in both directions: on the empty node list the
numpy reduction raises `ValueError` although the margin is not degenerate,
and on a node list with zero x span the stretch mode raises
`ZeroDivisionError` instead of returning a transform. -/
theorem compute_transform_valueerror_counterexample :
    (compute_transform ([] : List (Node Unit)) 100 100 0 FitMode.uniform =
        Except.error PyErr.valueError ∧
      ¬((100 : ℚ) - 2 * 0 ≤ 0 ∨ (100 : ℚ) - 2 * 0 ≤ 0)) ∧
      compute_transform [(⟨1, 5, 0, ()⟩ : Node Unit), ⟨2, 5, 7, ()⟩] 100 100 0 FitMode.stretch =
        Except.error PyErr.zeroDivisionError := by
  norm_num [compute_transform, listMin, listMax, pdiv, min_def, max_def]

/-- C10 as stated is false on the empty node list: in raw mode with a
non-degenerate margin the function still raises `ValueError` (from the
numpy min reduction) instead of returning the identity transform. -/
theorem compute_transform_raw_counterexample :
    compute_transform ([] : List (Node Unit)) 50 50 1 FitMode.raw =
        Except.error PyErr.valueError ∧
      ¬((50 : ℚ) - 2 * 1 ≤ 0 ∨ (50 : ℚ) - 2 * 1 ≤ 0) ∧
      compute_transform ([] : List (Node Unit)) 50 50 1 FitMode.raw ≠
        Except.ok (1, 1, 0, 0) := by
  norm_num [compute_transform]
  exact fun hcon => Except.noConfusion hcon

theorem isEmpty_false_of_ne_nil {α : Type} {ns : List (Node α)} (hne : ns ≠ []) :
    ns.isEmpty = false := by
  cases ns with
  | nil => exact absurd rfl hne
  | cons a t => rfl

theorem ct_raw {α : Type} (ns : List (Node α)) (width height : Int) (margin : ℚ)
    (hemp : ns.isEmpty = false)
    (hdeg : ¬((width : ℚ) - 2 * margin ≤ 0 ∨ (height : ℚ) - 2 * margin ≤ 0)) :
    compute_transform ns width height margin FitMode.raw = Except.ok (1, 1, 0, 0) := by
  simp only [compute_transform, hemp, Bool.false_eq_true, if_false]
  rw [if_neg hdeg]

theorem ct_stretch {α : Type} (ns : List (Node α)) (width height : Int) (margin : ℚ)
    (hemp : ns.isEmpty = false)
    (hdeg : ¬((width : ℚ) - 2 * margin ≤ 0 ∨ (height : ℚ) - 2 * margin ≤ 0)) :
    compute_transform ns width height margin FitMode.stretch =
      (match pdiv ((width : ℚ) - 2 * margin)
          (listMax (ns.map Node.x) - listMin (ns.map Node.x)) with
      | Except.error e => Except.error e
      | Except.ok scale_x =>
        match pdiv ((height : ℚ) - 2 * margin)
            (listMax (ns.map Node.y) - listMin (ns.map Node.y)) with
        | Except.error e => Except.error e
        | Except.ok scale_y =>
          Except.ok (scale_x, scale_y, margin - scale_x * listMin (ns.map Node.x),
            margin - scale_y * listMin (ns.map Node.y))) := by
  simp only [compute_transform, hemp, Bool.false_eq_true, if_false]
  rw [if_neg hdeg]

theorem ct_uniform {α : Type} (ns : List (Node α)) (width height : Int) (margin : ℚ)
    (hemp : ns.isEmpty = false)
    (hdeg : ¬((width : ℚ) - 2 * margin ≤ 0 ∨ (height : ℚ) - 2 * margin ≤ 0)) :
    compute_transform ns width height margin FitMode.uniform =
      (match pdiv ((width : ℚ) - 2 * margin)
          (listMax (ns.map Node.x) - listMin (ns.map Node.x)) with
      | Except.error e => Except.error e
      | Except.ok ratio_w =>
        match pdiv ((height : ℚ) - 2 * margin)
            (listMax (ns.map Node.y) - listMin (ns.map Node.y)) with
        | Except.error e => Except.error e
        | Except.ok ratio_h =>
          Except.ok (min ratio_w ratio_h, min ratio_w ratio_h,
            ((width : ℚ) -
                min ratio_w ratio_h * (listMax (ns.map Node.x) - listMin (ns.map Node.x))) / 2 -
              min ratio_w ratio_h * listMin (ns.map Node.x),
            ((height : ℚ) -
                min ratio_w ratio_h * (listMax (ns.map Node.y) - listMin (ns.map Node.y))) / 2 -
              min ratio_w ratio_h * listMin (ns.map Node.y))) := by
  simp only [compute_transform, hemp, Bool.false_eq_true, if_false]
  rw [if_neg hdeg]

theorem ct_degenerate {α : Type} (ns : List (Node α)) (width height : Int) (margin : ℚ)
    (mode : FitMode) (hemp : ns.isEmpty = false)
    (hdeg : (width : ℚ) - 2 * margin ≤ 0 ∨ (height : ℚ) - 2 * margin ≤ 0) :
    compute_transform ns width height margin mode = Except.error PyErr.valueError := by
  simp only [compute_transform, hemp, Bool.false_eq_true, if_false]
  rw [if_pos hdeg]

/-- C10 corrected (for nonempty node lists; on the empty list the min/max
reduction raises `ValueError` even for a fine margin): in raw mode
`compute_transform` raises `ValueError` whenever the margin is degenerate
— even though the margin has no effect on the raw result — and otherwise
returns the identity transform `(1, 1, 0, 0)`. -/
theorem compute_transform_raw_amended {α : Type} (ns : List (Node α)) (hne : ns ≠ [])
    (width height : Int) (margin : ℚ) :
    ((width : ℚ) - 2 * margin ≤ 0 ∨ (height : ℚ) - 2 * margin ≤ 0 →
        compute_transform ns width height margin FitMode.raw = Except.error PyErr.valueError) ∧
      (¬((width : ℚ) - 2 * margin ≤ 0 ∨ (height : ℚ) - 2 * margin ≤ 0) →
        compute_transform ns width height margin FitMode.raw = Except.ok (1, 1, 0, 0)) :=
  ⟨fun hdeg => ct_degenerate ns width height margin FitMode.raw (isEmpty_false_of_ne_nil hne) hdeg,
    fun hdeg => ct_raw ns width height margin (isEmpty_false_of_ne_nil hne) hdeg⟩

/-- Witness for the corrected C10 at a concrete nonempty input. -/
theorem compute_transform_raw_amended_witness :
    ([(⟨3, 1, 2, ()⟩ : Node Unit)] ≠ []) ∧
      (((60 : Int) : ℚ) - 2 * 5 ≤ 0 ∨ ((40 : Int) : ℚ) - 2 * 5 ≤ 0 →
          compute_transform [(⟨3, 1, 2, ()⟩ : Node Unit)] 60 40 5 FitMode.raw =
            Except.error PyErr.valueError) ∧
        (¬(((60 : Int) : ℚ) - 2 * 5 ≤ 0 ∨ ((40 : Int) : ℚ) - 2 * 5 ≤ 0) →
          compute_transform [(⟨3, 1, 2, ()⟩ : Node Unit)] 60 40 5 FitMode.raw =
            Except.ok (1, 1, 0, 0)) :=
  ⟨List.cons_ne_nil _ _,
    compute_transform_raw_amended [(⟨3, 1, 2, ()⟩ : Node Unit)] (List.cons_ne_nil _ _) 60 40 5⟩

/-- C8 corrected (for nonempty node lists; on the empty list the numpy
min/max reduction raises `ValueError` regardless of the margin):
`compute_transform` raises `ValueError` exactly when the margin is
degenerate, i.e. `width - 2*margin ≤ 0` or `height - 2*margin ≤ 0`; with a
non-degenerate margin it returns a transform in raw mode and whenever both
coordinate spans are nonzero, while in stretch and uniform modes a zero
x or y span raises `ZeroDivisionError` instead of returning. -/
theorem compute_transform_error_amended {α : Type} (ns : List (Node α)) (hne : ns ≠ [])
    (width height : Int) (margin : ℚ) (mode : FitMode) :
    (compute_transform ns width height margin mode = Except.error PyErr.valueError ↔
        (width : ℚ) - 2 * margin ≤ 0 ∨ (height : ℚ) - 2 * margin ≤ 0) ∧
      (¬((width : ℚ) - 2 * margin ≤ 0 ∨ (height : ℚ) - 2 * margin ≤ 0) →
        (mode = FitMode.raw →
          compute_transform ns width height margin mode = Except.ok (1, 1, 0, 0)) ∧
        (listMax (ns.map Node.x) - listMin (ns.map Node.x) ≠ 0 →
          listMax (ns.map Node.y) - listMin (ns.map Node.y) ≠ 0 →
          ∃ t, compute_transform ns width height margin mode = Except.ok t) ∧
        (mode ≠ FitMode.raw →
          (listMax (ns.map Node.x) - listMin (ns.map Node.x) = 0 ∨
            listMax (ns.map Node.y) - listMin (ns.map Node.y) = 0) →
          compute_transform ns width height margin mode =
            Except.error PyErr.zeroDivisionError)) := by
  have hemp := isEmpty_false_of_ne_nil hne
  by_cases hdeg : (width : ℚ) - 2 * margin ≤ 0 ∨ (height : ℚ) - 2 * margin ≤ 0
  · exact ⟨⟨fun _ => hdeg, fun _ => ct_degenerate ns width height margin mode hemp hdeg⟩,
      fun hn => absurd hdeg hn⟩
  · refine ⟨⟨fun heq => ?_, fun hd => absurd hd hdeg⟩,
      fun _ => ⟨fun hraw => ?_, fun hx hy => ?_, fun hmode hzero => ?_⟩⟩
    · cases mode with
      | raw =>
        rw [ct_raw ns width height margin hemp hdeg] at heq
        exact Except.noConfusion heq
      | stretch =>
        rw [ct_stretch ns width height margin hemp hdeg] at heq
        by_cases hx0 : listMax (ns.map Node.x) - listMin (ns.map Node.x) = 0
        · simp [pdiv, hx0] at heq
        · by_cases hy0 : listMax (ns.map Node.y) - listMin (ns.map Node.y) = 0
          · simp [pdiv, hx0, hy0] at heq
          · simp [pdiv, hx0, hy0] at heq
      | uniform =>
        rw [ct_uniform ns width height margin hemp hdeg] at heq
        by_cases hx0 : listMax (ns.map Node.x) - listMin (ns.map Node.x) = 0
        · simp [pdiv, hx0] at heq
        · by_cases hy0 : listMax (ns.map Node.y) - listMin (ns.map Node.y) = 0
          · simp [pdiv, hx0, hy0] at heq
          · simp [pdiv, hx0, hy0] at heq
    · subst hraw
      exact ct_raw ns width height margin hemp hdeg
    · have e1 : pdiv ((width : ℚ) - 2 * margin)
          (listMax (ns.map Node.x) - listMin (ns.map Node.x)) =
          Except.ok (((width : ℚ) - 2 * margin) /
            (listMax (ns.map Node.x) - listMin (ns.map Node.x))) := by
        simp [pdiv, hx]
      have e2 : pdiv ((height : ℚ) - 2 * margin)
          (listMax (ns.map Node.y) - listMin (ns.map Node.y)) =
          Except.ok (((height : ℚ) - 2 * margin) /
            (listMax (ns.map Node.y) - listMin (ns.map Node.y))) := by
        simp [pdiv, hy]
      cases mode with
      | raw => exact ⟨(1, 1, 0, 0), ct_raw ns width height margin hemp hdeg⟩
      | stretch =>
        rw [ct_stretch ns width height margin hemp hdeg, e1, e2]
        exact ⟨_, rfl⟩
      | uniform =>
        rw [ct_uniform ns width height margin hemp hdeg, e1, e2]
        exact ⟨_, rfl⟩
    · cases mode with
      | raw => exact absurd rfl hmode
      | stretch =>
        rcases hzero with hx0 | hy0
        · have e1 : pdiv ((width : ℚ) - 2 * margin)
              (listMax (ns.map Node.x) - listMin (ns.map Node.x)) =
              Except.error PyErr.zeroDivisionError := by simp [pdiv, hx0]
          rw [ct_stretch ns width height margin hemp hdeg, e1]
        · by_cases hx0 : listMax (ns.map Node.x) - listMin (ns.map Node.x) = 0
          · have e1 : pdiv ((width : ℚ) - 2 * margin)
                (listMax (ns.map Node.x) - listMin (ns.map Node.x)) =
                Except.error PyErr.zeroDivisionError := by simp [pdiv, hx0]
            rw [ct_stretch ns width height margin hemp hdeg, e1]
          · have e1 : pdiv ((width : ℚ) - 2 * margin)
                (listMax (ns.map Node.x) - listMin (ns.map Node.x)) =
                Except.ok (((width : ℚ) - 2 * margin) /
                  (listMax (ns.map Node.x) - listMin (ns.map Node.x))) := by
              simp [pdiv, hx0]
            have e2 : pdiv ((height : ℚ) - 2 * margin)
                (listMax (ns.map Node.y) - listMin (ns.map Node.y)) =
                Except.error PyErr.zeroDivisionError := by simp [pdiv, hy0]
            rw [ct_stretch ns width height margin hemp hdeg, e1, e2]
      | uniform =>
        rcases hzero with hx0 | hy0
        · have e1 : pdiv ((width : ℚ) - 2 * margin)
              (listMax (ns.map Node.x) - listMin (ns.map Node.x)) =
              Except.error PyErr.zeroDivisionError := by simp [pdiv, hx0]
          rw [ct_uniform ns width height margin hemp hdeg, e1]
        · by_cases hx0 : listMax (ns.map Node.x) - listMin (ns.map Node.x) = 0
          · have e1 : pdiv ((width : ℚ) - 2 * margin)
                (listMax (ns.map Node.x) - listMin (ns.map Node.x)) =
                Except.error PyErr.zeroDivisionError := by simp [pdiv, hx0]
            rw [ct_uniform ns width height margin hemp hdeg, e1]
          · have e1 : pdiv ((width : ℚ) - 2 * margin)
                (listMax (ns.map Node.x) - listMin (ns.map Node.x)) =
                Except.ok (((width : ℚ) - 2 * margin) /
                  (listMax (ns.map Node.x) - listMin (ns.map Node.x))) := by
              simp [pdiv, hx0]
            have e2 : pdiv ((height : ℚ) - 2 * margin)
                (listMax (ns.map Node.y) - listMin (ns.map Node.y)) =
                Except.error PyErr.zeroDivisionError := by simp [pdiv, hy0]
            rw [ct_uniform ns width height margin hemp hdeg, e1, e2]

/-- Sample node list used to instantiate the corrected C8. -/
def c8nodes : List (Node Unit) := [⟨1, 0, 0, ()⟩, ⟨2, 4, 6, ()⟩]

/-- Witness for the corrected C8 at a concrete nonempty input. -/
theorem compute_transform_error_amended_witness :
    (c8nodes ≠ []) ∧
      ((compute_transform c8nodes 100 80 10 FitMode.stretch = Except.error PyErr.valueError ↔
          ((100 : Int) : ℚ) - 2 * 10 ≤ 0 ∨ ((80 : Int) : ℚ) - 2 * 10 ≤ 0) ∧
        (¬(((100 : Int) : ℚ) - 2 * 10 ≤ 0 ∨ ((80 : Int) : ℚ) - 2 * 10 ≤ 0) →
          (FitMode.stretch = FitMode.raw →
            compute_transform c8nodes 100 80 10 FitMode.stretch = Except.ok (1, 1, 0, 0)) ∧
          (listMax (c8nodes.map Node.x) - listMin (c8nodes.map Node.x) ≠ 0 →
            listMax (c8nodes.map Node.y) - listMin (c8nodes.map Node.y) ≠ 0 →
            ∃ t, compute_transform c8nodes 100 80 10 FitMode.stretch = Except.ok t) ∧
          (FitMode.stretch ≠ FitMode.raw →
            (listMax (c8nodes.map Node.x) - listMin (c8nodes.map Node.x) = 0 ∨
              listMax (c8nodes.map Node.y) - listMin (c8nodes.map Node.y) = 0) →
            compute_transform c8nodes 100 80 10 FitMode.stretch =
              Except.error PyErr.zeroDivisionError))) :=
  ⟨List.cons_ne_nil _ _,
    compute_transform_error_amended c8nodes (List.cons_ne_nil _ _) 100 80 10 FitMode.stretch⟩

/-- C7 corrected: with x spanning exactly [0, 100], width 1000, margin 0
and uniform fit, the scale is `usable_width / 100 = 10` and x = 0 / x = 100
land on the margin boundaries 0 and 1000 — provided the horizontal ratio
is the binding one, i.e. the y span is positive and
`usable_height / y_span ≥ 10` (otherwise the uniform scale is the smaller
vertical ratio, as the counterexample shows). -/
theorem compute_transform_uniform_amended {α : Type} (ns : List (Node α)) (height : Int)
    (hne : ns ≠ [])
    (hminx : listMin (ns.map Node.x) = 0)
    (hmaxx : listMax (ns.map Node.x) = 100)
    (hsrch : 0 < listMax (ns.map Node.y) - listMin (ns.map Node.y))
    (hbind : 10 ≤ (height : ℚ) / (listMax (ns.map Node.y) - listMin (ns.map Node.y))) :
    compute_transform ns 1000 height 0 FitMode.uniform =
        Except.ok (10, 10, 0,
          ((height : ℚ) - 10 * (listMax (ns.map Node.y) - listMin (ns.map Node.y))) / 2 -
            10 * listMin (ns.map Node.y)) ∧
      (transform_nodes ns 10 10 0
          (((height : ℚ) - 10 * (listMax (ns.map Node.y) - listMin (ns.map Node.y))) / 2 -
            10 * listMin (ns.map Node.y))).map Node.x =
        ns.map (fun n => n.x * 10 + 0) := by
  have hemp := isEmpty_false_of_ne_nil hne
  have hh : (0 : ℚ) < (height : ℚ) := by
    by_contra hc
    push_neg at hc
    have hle : (height : ℚ) / (listMax (ns.map Node.y) - listMin (ns.map Node.y)) ≤ 0 :=
      div_nonpos_iff.mpr (Or.inr ⟨hc, le_of_lt hsrch⟩)
    linarith
  have hdeg : ¬(((1000 : Int) : ℚ) - 2 * 0 ≤ 0 ∨ ((height : Int) : ℚ) - 2 * 0 ≤ 0) := by
    push_neg
    constructor
    · norm_num
    · linarith
  have hsw : listMax (ns.map Node.x) - listMin (ns.map Node.x) = 100 := by
    rw [hminx, hmaxx]
    norm_num
  have hsh := ne_of_gt hsrch
  have e1 : pdiv (((1000 : Int) : ℚ) - 2 * 0)
      (listMax (ns.map Node.x) - listMin (ns.map Node.x)) = Except.ok 10 := by
    rw [hsw]
    simp only [pdiv]
    norm_num
  have e2 : pdiv (((height : Int) : ℚ) - 2 * 0)
      (listMax (ns.map Node.y) - listMin (ns.map Node.y)) =
      Except.ok ((height : ℚ) / (listMax (ns.map Node.y) - listMin (ns.map Node.y))) := by
    simp only [pdiv, if_neg hsh]
    norm_num
  have hmin : min (10 : ℚ)
      ((height : ℚ) / (listMax (ns.map Node.y) - listMin (ns.map Node.y))) = 10 :=
    min_eq_left hbind
  constructor
  · rw [ct_uniform ns 1000 height 0 hemp hdeg, e1, e2]
    simp only [hmin, hminx, hmaxx]
    norm_num
  · rw [transform_nodes, transform_foldl_eq_map, List.nil_append, List.map_map]
    rfl

/-- Sample node list for the corrected C7: x spans [0, 100], y spans
[0, 10], so with height 200 the horizontal ratio binds. -/
def c7wnodes : List (Node Unit) := [⟨1, 0, 0, ()⟩, ⟨2, 100, 10, ()⟩]

/-- Witness for the corrected C7 at a concrete input. -/
theorem compute_transform_uniform_amended_witness :
    (c7wnodes ≠ [] ∧
        listMin (c7wnodes.map Node.x) = 0 ∧
        listMax (c7wnodes.map Node.x) = 100 ∧
        0 < listMax (c7wnodes.map Node.y) - listMin (c7wnodes.map Node.y) ∧
        10 ≤ ((200 : Int) : ℚ) / (listMax (c7wnodes.map Node.y) - listMin (c7wnodes.map Node.y))) ∧
      (compute_transform c7wnodes 1000 200 0 FitMode.uniform =
          Except.ok (10, 10, 0,
            (((200 : Int) : ℚ) -
                10 * (listMax (c7wnodes.map Node.y) - listMin (c7wnodes.map Node.y))) / 2 -
              10 * listMin (c7wnodes.map Node.y)) ∧
        (transform_nodes c7wnodes 10 10 0
            ((((200 : Int) : ℚ) -
                10 * (listMax (c7wnodes.map Node.y) - listMin (c7wnodes.map Node.y))) / 2 -
              10 * listMin (c7wnodes.map Node.y))).map Node.x =
          c7wnodes.map (fun n => n.x * 10 + 0)) :=
  ⟨⟨List.cons_ne_nil _ _,
      by norm_num [c7wnodes, listMin, listMax, min_def, max_def],
      by norm_num [c7wnodes, listMin, listMax, min_def, max_def],
      by norm_num [c7wnodes, listMin, listMax, min_def, max_def],
      by norm_num [c7wnodes, listMin, listMax, min_def, max_def]⟩,
    compute_transform_uniform_amended c7wnodes 200 (List.cons_ne_nil _ _)
      (by norm_num [c7wnodes, listMin, listMax, min_def, max_def])
      (by norm_num [c7wnodes, listMin, listMax, min_def, max_def])
      (by norm_num [c7wnodes, listMin, listMax, min_def, max_def])
      (by norm_num [c7wnodes, listMin, listMax, min_def, max_def])⟩

end LSY
